import Mathlib

/-!
Verification of the bbs2gh migration pipeline (src/bbs2gh-migration.py)
against its natural-language specification.

The Python source is shallowly embedded: strings are Lean `String`s
(lists of characters), Python `str.replace` is modelled by a fuel-based
single left-to-right pass (`replaceAux`), Python `str.lower` by the
ASCII lowering `lowerChar` (the source only ever lowers ASCII
identifiers), and the stateful pipeline (`run_migration` and the
post-migration steps) as pure functions from a `World` of external-call
outcomes to an event trace plus a run outcome.
-/

/-! ## Python string primitives -/

/-- One left-to-right, non-overlapping replacement pass over a character
list, as performed by Python `str.replace(pat, rep)`.  `fuel` bounds the
recursion; every caller passes the length of the subject string, which
suffices because each step consumes at least one character.  (Python's
empty-pattern behaviour is never exercised by the source: the guard
`p ≠ []` makes an empty pattern a no-op here.) -/
def replaceAux (p r : List Char) : Nat → List Char → List Char
  | 0, s => s
  | _ + 1, [] => []
  | fuel + 1, c :: cs =>
    if p ≠ [] ∧ List.take p.length (c :: cs) = p then
      r ++ replaceAux p r fuel (List.drop p.length (c :: cs))
    else
      c :: replaceAux p r fuel cs

/-- Python `s.replace(pat, rep)`. -/
def pyReplace (s pat rep : String) : String :=
  ⟨replaceAux pat.data rep.data s.data.length s.data⟩

/-- ASCII lowering of one character, as Python `str.lower` acts on the
ASCII identifiers this script manipulates. -/
def lowerChar (c : Char) : Char :=
  if h : 65 ≤ c.toNat ∧ c.toNat ≤ 90 then
    Char.ofNatAux (c.toNat + 32) (Or.inl (by omega))
  else c

/-- Python `s.lower()` (ASCII fragment). -/
def pyLower (s : String) : String :=
  ⟨s.data.map lowerChar⟩

/-! ## Identity Resolver (process_input, get_new_repo_name) -/

/-- The normalization applied to `BB_REPO_NAME` inside `process_input`
(line 71): `BB_REPO_NAME.replace(" ", "-").lower()`. -/
def normalize_repo_name (s : String) : String :=
  pyLower (pyReplace s " " "-")

/-- `get_new_repo_name` (lines 100-118): the destination repository name.
The combined string `f"{GH_ORG_NAME}-{PROJECT_CODE}-"` has every
occurrence of `"pru-"` removed; the slug is the space-hyphenated
user-defined name unless it equals the literal sentinel `"None"`, in
which case the (already normalized) source repo name is used; the whole
result is lowercased. -/
def get_new_repo_name (GH_ORG_NAME BB_REPO_NAME PROJECT_CODE USER_DEFINED_NAME : String) :
    String :=
  let pfx := pyReplace (GH_ORG_NAME ++ "-" ++ PROJECT_CODE ++ "-") "pru-" ""
  let noSpaceName := pyReplace BB_REPO_NAME " " "-"
  let slug := if USER_DEFINED_NAME ≠ "None" then pyReplace USER_DEFINED_NAME " " "-"
              else noSpaceName
  pyLower (pfx ++ slug)

/-- The destination name as computed by the whole pipeline:
`process_input` normalizes the source repo name (line 71) and
`run_migration` then calls `get_new_repo_name` on it (line 248). -/
def derived_destination_name (org repo code override : String) : String :=
  get_new_repo_name org (normalize_repo_name repo) code override

/-- Modelled from the spec: "DestinationName: derived value =
`{org}-{project_code}-{slug}` (org prefix stripped of a known tenant
marker), lowercased".  The tenant-marker removal here acts on the org
name alone, as the spec's words say; this definition exists to be
compared with `get_new_repo_name`, which is the source's version. -/
def deriveDestinationNameSpec (org code slug : String) : String :=
  pyLower (pyReplace org "pru-" "" ++ "-" ++ code ++ "-" ++ slug)

/-! ## Helper lemmas on the string primitives -/

/-- The space character, `" ".data = [spaceChar]`. -/
def spaceChar : Char := Char.ofNat 32

theorem toNat_lowerChar_of_upper {c : Char} (h : 65 ≤ c.toNat ∧ c.toNat ≤ 90) :
    (lowerChar c).toNat = c.toNat + 32 := by
  unfold lowerChar
  rw [dif_pos h]
  show (Char.ofNatAux (c.toNat + 32) _).val.toNat = _
  simp [Char.ofNatAux, UInt32.toNat]

theorem lowerChar_of_not_upper {c : Char} (h : ¬ (65 ≤ c.toNat ∧ c.toNat ≤ 90)) :
    lowerChar c = c := by
  rw [lowerChar, dif_neg h]

theorem lowerChar_idem (c : Char) : lowerChar (lowerChar c) = lowerChar c := by
  by_cases h : 65 ≤ c.toNat ∧ c.toNat ≤ 90
  · have h2 := toNat_lowerChar_of_upper h
    exact lowerChar_of_not_upper (by omega)
  · rw [lowerChar_of_not_upper h, lowerChar_of_not_upper h]

/-- Lowering never produces a character below code point 65 (in
particular never a space) unless the input already was one. -/
theorem eq_of_lowerChar_eq_low {a : Char} (ha : a.toNat < 65) (c : Char) :
    lowerChar c = a → c = a := by
  intro h
  by_cases hc : 65 ≤ c.toNat ∧ c.toNat ≤ 90
  · have h2 := toNat_lowerChar_of_upper hc
    rw [h] at h2
    omega
  · rwa [lowerChar_of_not_upper hc] at h

/-- A single pass that finds no occurrence of the (single-character)
pattern leaves the subject unchanged. -/
theorem replaceAux_of_not_mem {a : Char} {r : List Char} :
    ∀ (fuel : Nat) (s : List Char), a ∉ s → replaceAux [a] r fuel s = s := by
  intro fuel
  induction fuel with
  | zero => intro s _; rfl
  | succ n ih =>
    intro s hs
    match s with
    | [] => rfl
    | c :: cs =>
      rw [replaceAux]
      have hca : ¬ (([a] : List Char) ≠ [] ∧ List.take ([a] : List Char).length (c :: cs) = [a]) := by
        simp only [List.length_singleton, List.take_succ_cons, List.take_zero, ne_eq, not_and]
        intro _
        simp only [List.cons.injEq, and_true]
        intro hc
        exact hs (hc ▸ List.mem_cons_self c cs)
      rw [if_neg hca]
      have : a ∉ cs := fun hmem => hs (List.mem_cons_of_mem c hmem)
      rw [ih cs this]

/-- Replacing a single-character pattern by a replacement that does not
contain it removes every occurrence (given enough fuel). -/
theorem not_mem_replaceAux {a : Char} {r : List Char} (hr : a ∉ r) :
    ∀ (fuel : Nat) (s : List Char), s.length ≤ fuel → a ∉ replaceAux [a] r fuel s := by
  intro fuel
  induction fuel with
  | zero =>
    intro s hs
    have : s = [] := List.length_eq_zero.mp (Nat.le_zero.mp hs)
    subst this
    simp [replaceAux]
  | succ n ih =>
    intro s hs
    match s with
    | [] => simp [replaceAux]
    | c :: cs =>
      rw [replaceAux]
      by_cases hc : (([a] : List Char) ≠ [] ∧ List.take ([a] : List Char).length (c :: cs) = [a])
      · rw [if_pos hc]
        intro hmem
        rcases List.mem_append.mp hmem with h1 | h2
        · exact hr h1
        · have hlen : (List.drop ([a] : List Char).length (c :: cs)).length ≤ n := by
            simp only [List.length_singleton, List.drop_succ_cons, List.drop_zero]
            simp only [List.length_cons] at hs
            omega
          exact ih _ hlen h2
      · rw [if_neg hc]
        intro hmem
        rcases List.mem_cons.mp hmem with h1 | h2
        · apply hc
          refine ⟨by simp, ?_⟩
          simp [h1]
        · have hlen : cs.length ≤ n := by
            simp only [List.length_cons] at hs; omega
          exact ih cs hlen h2

theorem space_not_mem_pyReplace_space (s : String) :
    spaceChar ∉ (pyReplace s " " "-").data := by
  have hpat : (" " : String).data = [spaceChar] := by decide
  have hrep : spaceChar ∉ ("-" : String).data := by decide
  show spaceChar ∉ replaceAux (" " : String).data ("-" : String).data s.data.length s.data
  rw [hpat]
  exact not_mem_replaceAux hrep s.data.length s.data (Nat.le_refl _)

theorem space_not_mem_map_lowerChar {l : List Char} (h : spaceChar ∉ l) :
    spaceChar ∉ l.map lowerChar := by
  intro hmem
  rcases List.mem_map.mp hmem with ⟨c, hc, hlc⟩
  have : c = spaceChar := eq_of_lowerChar_eq_low (by decide) c hlc
  exact h (this ▸ hc)

theorem space_not_mem_normalize (repo : String) :
    spaceChar ∉ (normalize_repo_name repo).data := by
  exact space_not_mem_map_lowerChar (space_not_mem_pyReplace_space repo)

theorem pyReplace_space_of_no_space {s : String} (h : spaceChar ∉ s.data) :
    pyReplace s " " "-" = s := by
  apply String.ext
  have hpat : (" " : String).data = [spaceChar] := by decide
  show replaceAux (" " : String).data ("-" : String).data s.data.length s.data = s.data
  rw [hpat]
  exact replaceAux_of_not_mem s.data.length s.data h

theorem pyLower_append (a b : String) :
    pyLower (a ++ b) = pyLower a ++ pyLower b := by
  apply String.ext
  show (a.data ++ b.data).map lowerChar = (pyLower a).data ++ (pyLower b).data
  simp [pyLower]

theorem pyLower_idem (s : String) : pyLower (pyLower s) = pyLower s := by
  apply String.ext
  show (s.data.map lowerChar).map lowerChar = s.data.map lowerChar
  rw [List.map_map]
  exact List.map_congr_left (fun c _ => lowerChar_idem c)

theorem pyLower_normalize (repo : String) :
    pyLower (normalize_repo_name repo) = normalize_repo_name repo := by
  exact pyLower_idem (pyReplace repo " " "-")

/-! ## Claims C5, C6, C9: destination-name derivation -/

/-- C5 counterexample: the claim's general rule — org stripped of the
tenant marker, then the project code verbatim, then the slug — does not
match the code when the project code itself contains `"pru-"`: the code
removes `"pru-"` from the combined `{org}-{code}-` string, so the
occurrence inside the project code is deleted as well. -/
theorem C5_counterexample :
    derived_destination_name "pru-myorg" "repo" "pru-x" "None" = "myorg-x-repo" ∧
    deriveDestinationNameSpec "pru-myorg" "pru-x" (normalize_repo_name "repo") =
      "myorg-pru-x-repo" ∧
    derived_destination_name "pru-myorg" "repo" "pru-x" "None" ≠
      deriveDestinationNameSpec "pru-myorg" "pru-x" (normalize_repo_name "repo") := by
  refine ⟨by decide, by decide, by decide⟩

/-- C5 (amended): the concrete example holds exactly as stated
(slug `"my-repo"`, destination `"myorg-abc-my-repo"`); the general rule
is that the destination name is the combined `{org}-{project_code}-`
string with every occurrence of `"pru-"` removed, followed by the slug,
lowercased — the tenant-marker removal acts on the combined prefix, not
on the org name alone. -/
theorem C5_destination_name_amended :
    (normalize_repo_name "My Repo" = "my-repo" ∧
     derived_destination_name "pru-myorg" "My Repo" "abc" "None" = "myorg-abc-my-repo") ∧
    ∀ org repo code : String,
      derived_destination_name org repo code "None" =
        pyLower (pyReplace (org ++ "-" ++ code ++ "-") "pru-" "") ++ normalize_repo_name repo := by
  constructor
  · exact ⟨by decide, by decide⟩
  · intro org repo code
    show pyLower (pyReplace (org ++ "-" ++ code ++ "-") "pru-" "" ++
        (if ("None" : String) ≠ "None" then pyReplace "None" " " "-"
         else pyReplace (normalize_repo_name repo) " " "-")) = _
    rw [if_neg (by simp)]
    rw [pyReplace_space_of_no_space (space_not_mem_normalize repo)]
    rw [pyLower_append, pyLower_normalize]

/-- C6 counterexample: the sentinel in the code is the literal `"None"`
(capital N), compared case-sensitively; a user-supplied override equal
to the lowercase `"none"` is NOT treated as the sentinel — it becomes
the slug, instead of the normalized source repo name as the claim
states. -/
theorem C6_counterexample :
    get_new_repo_name "org" "repo" "c" "none" = "org-c-none" ∧
    get_new_repo_name "org" "repo" "c" "None" = "org-c-repo" ∧
    get_new_repo_name "org" "repo" "c" "none" ≠ get_new_repo_name "org" "repo" "c" "None" := by
  refine ⟨by decide, by decide, by decide⟩

/-- C6 (amended): with the sentinel being the literal `"None"`
(case-sensitive), any non-sentinel override replaces the normalized
source repo name as the slug: the derived name with override `ov` is
identical to the derived name obtained by using `ov` as the source repo
name with no override; the sentinel `"None"` makes the source repo name
the slug. -/
theorem C6_override_amended (org repo code ov : String) (h : ov ≠ "None") :
    get_new_repo_name org repo code ov = get_new_repo_name org ov code "None" := by
  show pyLower (_ ++ (if ov ≠ "None" then pyReplace ov " " "-" else pyReplace repo " " "-")) =
    pyLower (_ ++ (if ("None" : String) ≠ "None" then pyReplace "None" " " "-"
      else pyReplace ov " " "-"))
  rw [if_pos h, if_neg (by simp)]

/-- C6 witness: the amended theorem applied at a concrete input. -/
theorem C6_override_amended_witness :
    get_new_repo_name "pru-o" "r" "c" "My App" = get_new_repo_name "pru-o" "My App" "c" "None" :=
  C6_override_amended "pru-o" "r" "c" "My App" (by decide)

/-- C9: the tenant-marker removal `f"{org}-{code}-".replace("pru-", "")`
deletes every occurrence of `"pru-"` from the combined prefix, not only
a leading org prefix: an occurrence inside the project code, or in a
non-leading part of the org name, is removed from the destination name
as well.  The last conjunct states the general shape of the computation. -/
theorem C9_replace_combined :
    get_new_repo_name "myorg" "repo" "pru-x" "None" = "myorg-x-repo" ∧
    get_new_repo_name "aa-pru-bb" "repo" "cc" "None" = "aa-bb-cc-repo" ∧
    ∀ org repo code udn : String,
      get_new_repo_name org repo code udn =
        pyLower (pyReplace (org ++ "-" ++ code ++ "-") "pru-" "" ++
          (if udn ≠ "None" then pyReplace udn " " "-" else pyReplace repo " " "-")) := by
  refine ⟨by decide, by decide, fun org repo code udn => rfl⟩


/-! ## Ruleset Guard (repo_name_to_exclusion_ruleset, lines 607-650)

The mutated object is `conditions.repository_name`, a pair of pattern
lists.  The Python code reads the full condition object and writes it
back; only the `repository_name` member is ever changed, so the model
carries exactly that member (the untouched remainder of the condition
object is preserved trivially by the read-modify-write). -/

/-- The `conditions.repository_name` object of a ruleset: an `include`
list and an `exclude` list of repository-name patterns.  (`includeL`
stands for the Python key `"include"`, which is a Lean keyword.) -/
structure RepoNameCond where
  includeL : List String
  exclude : List String
deriving DecidableEq, Repr

/-- The `action == "add"` branch (line 636):
`conditions['repository_name']['exclude'].append(repo_name)`. -/
def applyAdd (repo : String) (c : RepoNameCond) : RepoNameCond :=
  { c with exclude := c.exclude ++ [repo] }

/-- Python `list.remove`: delete the first occurrence; raises
`ValueError` (modelled as `none`) when the element is absent. -/
def listRemoveFirst (x : String) : List String → Option (List String)
  | [] => none
  | y :: ys => if y = x then some ys else (listRemoveFirst x ys).map (y :: ·)

/-- The `action == "remove"` branch (lines 643-646): remove the first
occurrence of `repo_name` from `exclude` (`ValueError`, i.e. `none`, if
absent), then, if both lists are now empty, append the catch-all marker
`"~ALL"` to `include`. -/
def applyRemoveOpt (repo : String) (c : RepoNameCond) : Option RepoNameCond :=
  match listRemoveFirst repo c.exclude with
  | none => none
  | some ex =>
    some (if ex = [] ∧ c.includeL = [] then
            { includeL := c.includeL ++ ["~ALL"], exclude := ex }
          else
            { c with exclude := ex })

/-- An organization ruleset as the toggle sees it: its id, its name and
the optional `repository_name` condition.  Condition members other than
`repository_name` are never touched by the code and are omitted. -/
structure Ruleset where
  id : Nat
  name : String
  repository_name : Option RepoNameCond
deriving DecidableEq, Repr

/-- The allow-list of centrally managed ruleset names (line 622) —
including the trailing space of `'other_protected_branch '`, verbatim
from the source. -/
def managedRulesetNames : List String :=
  ["branch_names", "main_and_master", "other_protected_branch ", "restrict_binary_file_upload"]

/-- The loop body of `repo_name_to_exclusion_ruleset` over the listed
rulesets (lines 619-650), with all HTTP reads and writes succeeding.
Returns the organization's rulesets after the toggle's write-backs
together with `true`, or — when `list.remove` raises on a missing
repository name — the state at the moment of the unhandled `ValueError`
(earlier rulesets already written back, the offending ruleset and the
remaining ones untouched) together with `false`.  The source looks the
ruleset id up by name over the same listing (`next(...)`); ruleset
names in an organization listing are unique, so that lookup resolves to
the ruleset at hand.  A managed ruleset without a `repository_name`
condition, or an unrecognized action, only logs and continues. -/
def rulesetToggleRun (action repo : String) : List Ruleset → List Ruleset × Bool
  | [] => ([], true)
  | rs :: rest =>
    if rs.name ∈ managedRulesetNames then
      match rs.repository_name with
      | some c =>
        if action = "add" then
          let res := rulesetToggleRun action repo rest
          ({ rs with repository_name := some (applyAdd repo c) } :: res.1, res.2)
        else if action = "remove" then
          match applyRemoveOpt repo c with
          | some c2 =>
            let res := rulesetToggleRun action repo rest
            ({ rs with repository_name := some c2 } :: res.1, res.2)
          | none => (rs :: rest, false)
        else
          let res := rulesetToggleRun action repo rest
          (rs :: res.1, res.2)
      | none =>
        let res := rulesetToggleRun action repo rest
        (rs :: res.1, res.2)
    else
      let res := rulesetToggleRun action repo rest
      (rs :: res.1, res.2)

/-! ### Lemmas about the toggle -/

theorem listRemoveFirst_eq_none_iff (x : String) :
    ∀ l : List String, listRemoveFirst x l = none ↔ x ∉ l := by
  intro l
  induction l with
  | nil => simp [listRemoveFirst]
  | cons y ys ih =>
    by_cases h : y = x
    · subst h
      simp [listRemoveFirst]
    · simp only [listRemoveFirst, if_neg h, Option.map_eq_none', ih, List.mem_cons]
      constructor
      · rintro hn (h1 | h2)
        · exact h h1.symm
        · exact hn h2
      · intro hn h2
        exact hn (Or.inr h2)

/-- Removing the first occurrence of a freshly appended element recovers
the original list, provided the element did not already occur. -/
theorem listRemoveFirst_append_self {x : String} {l : List String} (h : x ∉ l) :
    listRemoveFirst x (l ++ [x]) = some l := by
  induction l with
  | nil => simp [listRemoveFirst]
  | cons y ys ih =>
    have hyx : y ≠ x := fun hy => h (hy ▸ List.mem_cons_self y ys)
    have hys : x ∉ ys := fun hm => h (List.mem_cons_of_mem y hm)
    simp only [List.cons_append, listRemoveFirst, if_neg hyx, List.append_eq, ih hys,
      Option.map_some']

/-- `list.remove` raises (`none`) exactly when the element is absent. -/
theorem applyRemoveOpt_eq_none_iff (repo : String) (c : RepoNameCond) :
    applyRemoveOpt repo c = none ↔ repo ∉ c.exclude := by
  unfold applyRemoveOpt
  cases hrem : listRemoveFirst repo c.exclude with
  | none =>
    simp only [true_iff]
    exact (listRemoveFirst_eq_none_iff repo c.exclude).mp hrem
  | some ex =>
    simp only [reduceCtorEq, false_iff, not_not]
    by_contra hmem
    rw [(listRemoveFirst_eq_none_iff repo c.exclude).mpr hmem] at hrem
    exact Option.noConfusion hrem

/-- The remove toggle finishes without raising exactly when the
repository name is present in the exclude list of every managed ruleset
that has a `repository_name` condition. -/
theorem rulesetToggleRun_remove_done_iff (repo : String) (l : List Ruleset) :
    (rulesetToggleRun "remove" repo l).2 = true ↔
      ∀ rs ∈ l, rs.name ∈ managedRulesetNames →
        ∀ c, rs.repository_name = some c → repo ∈ c.exclude := by
  have hne : ¬ (("remove" : String) = "add") := by decide
  induction l with
  | nil => simp [rulesetToggleRun]
  | cons rs rest ih =>
    by_cases hm : rs.name ∈ managedRulesetNames
    · cases hc : rs.repository_name with
      | some c =>
        cases hrem : applyRemoveOpt repo c with
        | some c2 =>
          have hmem : repo ∈ c.exclude := by
            by_contra hnot
            rw [(applyRemoveOpt_eq_none_iff repo c).mpr hnot] at hrem
            exact Option.noConfusion hrem
          simp only [rulesetToggleRun, if_pos hm, hc, hrem, if_neg hne, if_true, List.mem_cons,
            forall_eq_or_imp]
          constructor
          · intro hrest
            refine ⟨fun _ c3 hc3 => ?_, ih.mp hrest⟩
            rw [← Option.some.inj hc3]
            exact hmem
          · intro hall
            exact ih.mpr hall.2
        | none =>
          have hnot : repo ∉ c.exclude := (applyRemoveOpt_eq_none_iff repo c).mp hrem
          simp only [rulesetToggleRun, if_pos hm, hc, hrem, if_neg hne, if_true, List.mem_cons,
            forall_eq_or_imp, Bool.false_eq_true, false_iff, not_and, not_forall]
          intro hall
          exact absurd (hall hm c rfl) hnot
      | none =>
        simp only [rulesetToggleRun, if_pos hm, hc, List.mem_cons, forall_eq_or_imp]
        constructor
        · intro hrest
          exact ⟨fun _ c3 hc3 => Option.noConfusion hc3, ih.mp hrest⟩
        · intro hall
          exact ih.mpr hall.2
    · simp only [rulesetToggleRun, if_neg hm, List.mem_cons, forall_eq_or_imp]
      constructor
      · intro hrest
        exact ⟨fun hmem2 => absurd hmem2 hm, ih.mp hrest⟩
      · intro hall
        exact ih.mpr hall.2

/-- The add toggle never raises. -/
theorem rulesetToggleRun_add_done (repo : String) (l : List Ruleset) :
    (rulesetToggleRun "add" repo l).2 = true := by
  induction l with
  | nil => rfl
  | cons rs rest ih =>
    by_cases hm : rs.name ∈ managedRulesetNames
    · cases hc : rs.repository_name with
      | some c => simpa [rulesetToggleRun, hm, hc] using ih
      | none => simpa [rulesetToggleRun, hm, hc] using ih
    · simpa [rulesetToggleRun, hm] using ih

/-- After the add toggle, every managed ruleset with a `repository_name`
condition lists the repository in its exclude list. -/
theorem mem_exclude_after_add (repo : String) (l : List Ruleset) :
    ∀ rs2 ∈ (rulesetToggleRun "add" repo l).1, rs2.name ∈ managedRulesetNames →
      ∀ c, rs2.repository_name = some c → repo ∈ c.exclude := by
  induction l with
  | nil => simp [rulesetToggleRun]
  | cons rs rest ih =>
    by_cases hm : rs.name ∈ managedRulesetNames
    · cases hc : rs.repository_name with
      | some c =>
        simp only [rulesetToggleRun, if_pos hm, hc, if_true, eq_self_iff_true, List.mem_cons,
          forall_eq_or_imp]
        refine ⟨fun _ c3 hc3 => ?_, ih⟩
        rw [← Option.some.inj hc3]
        exact List.mem_append_right _ (List.mem_singleton.mpr rfl)
      | none =>
        simp only [rulesetToggleRun, if_pos hm, hc, List.mem_cons, forall_eq_or_imp]
        exact ⟨fun _ c3 hc3 => Option.noConfusion hc3, ih⟩
    · simp only [rulesetToggleRun, if_neg hm, List.mem_cons, forall_eq_or_imp]
      exact ⟨fun hmem2 => absurd hmem2 hm, ih⟩

/-- The remove toggle, run on the state the add toggle produced for the
same repository name, always finishes without raising. -/
theorem remove_after_add_done (repo : String) (l : List Ruleset) :
    (rulesetToggleRun "remove" repo (rulesetToggleRun "add" repo l).1).2 = true :=
  (rulesetToggleRun_remove_done_iff repo _).mpr (mem_exclude_after_add repo l)

/-! ## Claims C1, C7, C10: the exclusion toggle on condition objects -/

/-- C1 counterexample: when the repository name already occurs in the
original exclude list at a non-final position, add-then-remove does not
restore the original condition object: `append` puts the new copy at
the end but `list.remove` deletes the first occurrence, so the list
order changes — here from `["a", "r", "b"]` to `["a", "b", "r"]` —
even though the original lists were not both empty. -/
theorem C1_counterexample :
    applyRemoveOpt "r" (applyAdd "r" ⟨["x"], ["a", "r", "b"]⟩) =
      some ⟨["x"], ["a", "b", "r"]⟩ ∧
    (⟨["x"], ["a", "b", "r"]⟩ : RepoNameCond) ≠ ⟨["x"], ["a", "r", "b"]⟩ ∧
    ¬((["a", "r", "b"] : List String) = [] ∧ (["x"] : List String) = []) := by
  refine ⟨by decide, by decide, by decide⟩

/-- C1 (amended): provided the repository name is not already present in
the original exclude list, applying the toggle with `add` and then with
`remove` for the same name restores the original condition object
exactly, except when the original exclude and include lists were both
empty, in which case the post-state is `include = ["~ALL"]`,
`exclude = []` instead. -/
theorem C1_add_remove_amended (r : String) (c : RepoNameCond) (h : r ∉ c.exclude) :
    applyRemoveOpt r (applyAdd r c) =
      some (if c.exclude = [] ∧ c.includeL = [] then
              { includeL := ["~ALL"], exclude := [] }
            else c) := by
  have hrw : listRemoveFirst r (c.exclude ++ [r]) = some c.exclude :=
    listRemoveFirst_append_self h
  unfold applyRemoveOpt applyAdd
  simp only [hrw]
  by_cases hcond : c.exclude = [] ∧ c.includeL = []
  · rw [if_pos hcond, if_pos hcond]
    simp [hcond.1, hcond.2]
  · rw [if_neg hcond, if_neg hcond]

/-- C1 witness: the amended theorem applied to a concrete condition
object whose lists are not both empty. -/
theorem C1_add_remove_amended_witness :
    applyRemoveOpt "x" (applyAdd "x" ⟨["i"], ["a"]⟩) =
      some (if (["a"] : List String) = [] ∧ (["i"] : List String) = [] then
              { includeL := ["~ALL"], exclude := [] }
            else ⟨["i"], ["a"]⟩) :=
  C1_add_remove_amended "x" ⟨["i"], ["a"]⟩ (by decide)

/-- C7: removing `"repo-a"` from the condition
`{exclude: ["repo-a"], include: []}` yields
`{exclude: [], include: ["~ALL"]}`; and in general, whenever the remove
action empties the exclude list while the include list is empty, the
written-back include list is exactly `["~ALL"]`. -/
theorem C7_remove_marker :
    applyRemoveOpt "repo-a" ⟨[], ["repo-a"]⟩ = some ⟨["~ALL"], []⟩ ∧
    ∀ (r : String) (c c2 : RepoNameCond), applyRemoveOpt r c = some c2 →
      c2.exclude = [] → c.includeL = [] → c2.includeL = ["~ALL"] := by
  constructor
  · decide
  · intro r c c2 hrem hex hinc
    unfold applyRemoveOpt at hrem
    cases hlr : listRemoveFirst r c.exclude with
    | none => rw [hlr] at hrem; exact absurd hrem (by simp)
    | some ex =>
      rw [hlr] at hrem
      have hc2 := Option.some.inj hrem
      by_cases hcond : ex = [] ∧ c.includeL = []
      · rw [if_pos hcond] at hc2
        rw [← hc2]
        simp [hcond.2]
      · rw [if_neg hcond] at hc2
        exfalso
        apply hcond
        refine ⟨?_, hinc⟩
        rw [← hc2] at hex
        exact hex

/-- C7 witness: the general part of the theorem applied at a concrete
condition object. -/
theorem C7_remove_marker_witness : (⟨["~ALL"], []⟩ : RepoNameCond).includeL = ["~ALL"] :=
  C7_remove_marker.2 "b" ⟨[], ["b"]⟩ ⟨["~ALL"], []⟩ (by decide) rfl rfl

/-- C10 counterexample: the unhandled `ValueError` does NOT always fire
before any write-back.  With two managed rulesets where only the first
lists the repository name, the first ruleset's condition is written back
(its exclude list is emptied) before the `ValueError` on the second one
terminates the run. -/
theorem C10_counterexample :
    rulesetToggleRun "remove" "r"
        [⟨1, "branch_names", some ⟨["x"], ["r"]⟩⟩,
         ⟨2, "main_and_master", some ⟨["x"], []⟩⟩] =
      ([⟨1, "branch_names", some ⟨["x"], []⟩⟩,
        ⟨2, "main_and_master", some ⟨["x"], []⟩⟩], false) ∧
    (⟨1, "branch_names", some (⟨["x"], []⟩ : RepoNameCond)⟩ : Ruleset) ≠
      ⟨1, "branch_names", some ⟨["x"], ["r"]⟩⟩ := by
  refine ⟨by decide, by decide⟩

/-- C10 (amended): the remove action raises an unhandled error
(`list.remove` on a missing element) — terminating the process before
the write-back of the affected ruleset, though managed rulesets
processed earlier have already been written back — unless the
repository name is present in the exclude list of every managed ruleset
that has a `repository_name` condition; that presence is exactly the
precondition for the remove action to complete normally. -/
theorem C10_remove_precondition_amended (repo : String) (l : List Ruleset) :
    (rulesetToggleRun "remove" repo l).2 = true ↔
      ∀ rs ∈ l, rs.name ∈ managedRulesetNames →
        ∀ c, rs.repository_name = some c → repo ∈ c.exclude :=
  rulesetToggleRun_remove_done_iff repo l

/-! ## Pipeline Controller and Post-Migration Configurator

`run_migration` (lines 242-280) is embedded as a pure function from a
`World` — the outcomes of every external interaction of one run — to
the list of externally visible events the run performs, in order, plus
how the run ends.  The three ways a run ends are: `completed` (falls off
the end of `run_migration`), `exited` (an explicit `sys.exit`), and
`crashed` (an unhandled Python exception such as `ValueError`,
`NameError`, `AttributeError` or `subprocess.CalledProcessError`
propagating out of `main`).  Both terminate the process; they are kept
distinct because the spec's claims distinguish deliberate fatal exits
from accidental crashes. -/

/-- The ten post-migration configuration steps. -/
inductive Step
  | updateRepoMetadata
  | createStatusFile
  | setCustomProperties
  | setTopics
  | grantTeamAccess
  | createCodeowners
  | createEnvironments
  | registerWebhooks
  | appendLedger
  | removeLegacyAdmin
deriving DecidableEq, Repr

/-- Externally visible actions of one pipeline run.  The three `scp*`
events are the three remote commands of `scp_command` (stage via
`dzdo cat`, fetch via `scp`, delete the staged copy). -/
inductive Event
  | exportRun
  | scpStage
  | scpFetch
  | scpClean
  | rulesetToggle (action : String)
  | importRun
  | postStep (s : Step)
deriving DecidableEq, Repr

inductive RunOutcome
  | completed
  | exited
  | crashed
deriving DecidableEq, Repr

/-- How one post-migration step function ends: returns normally,
calls `sys.exit(1)`, or raises an unhandled exception. -/
inductive StepOutcome
  | ok
  | exit1
  | crash
deriving DecidableEq, Repr

def isPostStep : Event → Bool
  | Event.postStep _ => true
  | _ => false

/-- The post-migration-step events of a trace, in order. -/
def postEvents (evs : List Event) : List Event :=
  evs.filter isPostStep

/-- The outcomes of every external interaction of one run.
`exportExitCode` and `importExitCode` are carried but never read: the
source never inspects the child process's return code — only its error
stream (lines 166-170 and 230-234).  `validateOk` covers
`set_migration_prequisite` and `validate` (env vars present, project
code known, all three teams exist); its failure is a `sys.exit` before
anything else runs.  `rulesetHttpOk` is true when every GET/PUT of both
ruleset toggles returns 2xx (any non-2xx is `sys.exit(1)`). -/
structure World where
  rulesets : List Ruleset
  validateOk : Bool
  exportMarkerPath : Option String
  exportStderr : String
  exportExitCode : Nat
  scp1 : Bool
  scp2 : Bool
  scp3 : Bool
  rulesetHttpOk : Bool
  importStderr : String
  importExitCode : Nat
  repoMetadataStatus : Nat
  statusFileStatus : Nat
  propertiesStatus : Nat
  topicsStatus : Nat
  accessViewersStatus : Nat
  accessContributorsStatus : Nat
  accessManagersStatus : Nat
  codeownersStatus : Nat
  envTeamGetStatus : Nat
  envPutStatus : Nat
  envPolicyMainStatus : Nat
  envPolicyMasterStatus : Nat
  webhookStatus : Nat
  trackerGetStatus : Nat
  trackerPutStatus : Nat
  adminDeleteStatus : Nat
deriving DecidableEq, Repr

/-- `run_export_archive` (lines 140-180): streams the child's stdout and
remembers the archive path from a line containing the success marker
(`exportMarkerPath` is that extracted path, `none` when the marker never
appeared).  After the child exits, a non-empty error stream is
`sys.exit` regardless of the exit code; otherwise the function returns
the archive path variable — which is simply absent (`none`) when the
marker was never seen, with no fatal guard (line 172's
`if 'archive_file_path' in locals()` falls through to `return None`). -/
def run_export_archive (w : World) : List Event × Except RunOutcome (Option String) :=
  ([Event.exportRun],
   if w.exportStderr = "" then Except.ok w.exportMarkerPath else Except.error RunOutcome.exited)

/-- `scp_command` (lines 198-208): computes the local file name from the
archive path and runs three remote commands, each of which raises
`subprocess.CalledProcessError` on a non-zero exit (`run_command`
re-raises, nothing catches it).  When the archive path is `None`,
`EXPORT_ARCHIVE_FILE_PATH.split("/")` raises `AttributeError` before
the first remote command runs. -/
def scp_command (w : World) (archive : Option String) : List Event × Option RunOutcome :=
  match archive with
  | none => ([], some RunOutcome.crashed)
  | some _ =>
    if w.scp1 then
      if w.scp2 then
        if w.scp3 then ([Event.scpStage, Event.scpFetch, Event.scpClean], none)
        else ([Event.scpStage, Event.scpFetch, Event.scpClean], some RunOutcome.crashed)
      else ([Event.scpStage, Event.scpFetch], some RunOutcome.crashed)
    else ([Event.scpStage], some RunOutcome.crashed)

/-- `run_import_archive` (lines 210-240): streams the child's output;
after it exits, a non-empty error stream is `sys.exit` regardless of
exit code (the `Bool` is true when the import may proceed). -/
def run_import_archive (w : World) : List Event × Bool :=
  ([Event.importRun], w.importStderr = "")

/-- `repo_name_to_exclusion_ruleset` as invoked by the pipeline: any
non-2xx response on the listing GET, the per-ruleset GET or the
write-back PUT is `sys.exit(1)` (folded into `httpOk`); otherwise the
toggle loop `rulesetToggleRun` runs, whose only failure is the
unhandled `ValueError` of `list.remove`. -/
def repo_name_to_exclusion_ruleset (httpOk : Bool) (action repo : String)
    (state : List Ruleset) : List Event × Except RunOutcome (List Ruleset) :=
  ([Event.rulesetToggle action],
   if httpOk then
     let res := rulesetToggleRun action repo state
     if res.2 then Except.ok res.1 else Except.error RunOutcome.crashed
   else Except.error RunOutcome.exited)

/-- `update_org_repository` (lines 286-320): PATCH; non-2xx is
`sys.exit(1)`. -/
def update_org_repository (status : Nat) : StepOutcome :=
  if status = 200 ∨ status = 201 then StepOutcome.ok else StepOutcome.exit1

/-- `create_status_file_in_repo` (lines 322-351): logs success or
failure, never exits. -/
def create_status_file_in_repo (_status : Nat) : StepOutcome := StepOutcome.ok

/-- `update_repo_properties` (lines 383-408): logs, never exits. -/
def update_repo_properties (_status : Nat) : StepOutcome := StepOutcome.ok

/-- `update_org_repository_topics` (lines 477-493): logs, never exits
(its `sys.exit(1)` is commented out). -/
def update_org_repository_topics (_status : Nat) : StepOutcome := StepOutcome.ok

/-- `update_org_repository_access` (lines 495-517): one PUT per role in
order Viewers, Contributors, Managers; the first non-204 response is
`sys.exit(1)`. -/
def update_org_repository_access (v c m : Nat) : StepOutcome :=
  if v = 204 then
    if c = 204 then
      if m = 204 then StepOutcome.ok else StepOutcome.exit1
    else StepOutcome.exit1
  else StepOutcome.exit1

/-- `create_codeowners_in_repo` (lines 353-381): logs, never exits. -/
def create_codeowners_in_repo (_status : Nat) : StepOutcome := StepOutcome.ok

/-- `update_or_create_enviroments` (lines 410-475): when the team-id GET
is not 200 the error branch only logs (its `sys.exit(1)` is commented
out) but leaves the local `team_id` unassigned, so building the
reviewer payload raises an unhandled `NameError` — the run crashes.
When the GET is 200, every later failure (environment PUT, branch
policy POSTs) only logs and the function returns normally. -/
def update_or_create_enviroments (teamGetStatus _envPutStatus _pol1 _pol2 : Nat) : StepOutcome :=
  if teamGetStatus = 200 then StepOutcome.ok else StepOutcome.crash

/-- `update_repository_webhook` (lines 698-729): logs, never exits. -/
def update_repository_webhook (_status : Nat) : StepOutcome := StepOutcome.ok

/-- `update_migration_tracker` (lines 652-696): when the content GET is
not 200 the error branch only logs but leaves `sha` and `content`
unassigned, so `content + additional_content` raises an unhandled
`NameError` — the run crashes.  When the GET is 200, a failing PUT only
logs and the function returns normally. -/
def update_migration_tracker (getStatus _putStatus : Nat) : StepOutcome :=
  if getStatus = 200 then StepOutcome.ok else StepOutcome.crash

/-- `remove_repo_admin` (lines 731-742): non-204 is `sys.exit(1)`. -/
def remove_repo_admin (status : Nat) : StepOutcome :=
  if status = 204 then StepOutcome.ok else StepOutcome.exit1

/-- Sequencing of one post-migration step: on a normal return the rest
of the pipeline runs; `sys.exit(1)` or an unhandled exception ends the
run right after this step's external call. -/
def seqPost (s : Step) (o : StepOutcome) (rest : List Event × RunOutcome) :
    List Event × RunOutcome :=
  match o with
  | StepOutcome.ok => (Event.postStep s :: rest.1, rest.2)
  | StepOutcome.exit1 => ([Event.postStep s], RunOutcome.exited)
  | StepOutcome.crash => ([Event.postStep s], RunOutcome.crashed)

/-- The webhook dispatch of `run_migration` (lines 271-275): one call
for `Platform_Jenkins` or `Old_Jenkins`, two calls (both fixed URLs)
for `Both_Jenkins` — performed inside the one webhook step, which never
fails fatally; any other pipeline type skips the step entirely. -/
def webhook_block (w : World) (pt : String) (rest : List Event × RunOutcome) :
    List Event × RunOutcome :=
  if pt = "Platform_Jenkins" ∨ pt = "Old_Jenkins" then
    seqPost Step.registerWebhooks (update_repository_webhook w.webhookStatus) rest
  else if pt = "Both_Jenkins" then
    seqPost Step.registerWebhooks (update_repository_webhook w.webhookStatus) rest
  else rest

/-- The post-migration sequence of `run_migration` (lines 261-278), in
source order. -/
def post_migration_steps (w : World) (pt : String) (rest : List Event × RunOutcome) :
    List Event × RunOutcome :=
  seqPost Step.updateRepoMetadata (update_org_repository w.repoMetadataStatus) (
  seqPost Step.createStatusFile (create_status_file_in_repo w.statusFileStatus) (
  seqPost Step.setCustomProperties (update_repo_properties w.propertiesStatus) (
  seqPost Step.setTopics (update_org_repository_topics w.topicsStatus) (
  seqPost Step.grantTeamAccess (update_org_repository_access w.accessViewersStatus
    w.accessContributorsStatus w.accessManagersStatus) (
  seqPost Step.createCodeowners (create_codeowners_in_repo w.codeownersStatus) (
  seqPost Step.createEnvironments (update_or_create_enviroments w.envTeamGetStatus
    w.envPutStatus w.envPolicyMainStatus w.envPolicyMasterStatus) (
  webhook_block w pt (
  seqPost Step.appendLedger (update_migration_tracker w.trackerGetStatus w.trackerPutStatus) (
  seqPost Step.removeLegacyAdmin (remove_repo_admin w.adminDeleteStatus) rest)))))))))

/-- `run_migration` (lines 242-280): prerequisites and validation, name
derivation, export, download, exclusion add, import, settle delay (no
external effect, not modelled), the ten post-migration steps, exclusion
remove.  `BB_PROJECT_KEY` is only ever passed on to the child
processes. -/
def run_migration (w : World)
    (BB_PROJECT_KEY BB_REPO_NAME PROJECT_CODE GH_ORG_NAME PIPELINE_TYPE USER_DEFINED_NAME :
      String) : List Event × RunOutcome :=
  if w.validateOk then
    let ghName := get_new_repo_name GH_ORG_NAME BB_REPO_NAME PROJECT_CODE USER_DEFINED_NAME
    let ex := run_export_archive w
    match ex.2 with
    | Except.error o => (ex.1, o)
    | Except.ok archive =>
      let sc := scp_command w archive
      match sc.2 with
      | some o => (ex.1 ++ sc.1, o)
      | none =>
        let tg := repo_name_to_exclusion_ruleset w.rulesetHttpOk "add" ghName w.rulesets
        match tg.2 with
        | Except.error o => (ex.1 ++ sc.1 ++ tg.1, o)
        | Except.ok state1 =>
          let im := run_import_archive w
          if im.2 then
            let fin := repo_name_to_exclusion_ruleset w.rulesetHttpOk "remove" ghName state1
            let finres : List Event × RunOutcome :=
              (fin.1, match fin.2 with
                      | Except.ok _ => RunOutcome.completed
                      | Except.error o => o)
            let post := post_migration_steps w PIPELINE_TYPE finres
            (ex.1 ++ sc.1 ++ tg.1 ++ im.1 ++ post.1, post.2)
          else (ex.1 ++ sc.1 ++ tg.1 ++ im.1, RunOutcome.exited)
  else ([], RunOutcome.exited)

/-- `process_input` (lines 61-74): normalizes the source repo name and
hands over to `run_migration`. -/
def process_input (w : World) (pk repo code org pt udn : String) : List Event × RunOutcome :=
  run_migration w pk (normalize_repo_name repo) code org pt udn

/-- Every external call of the run returns its success status. -/
def AllSuccess (w : World) : Prop :=
  w.validateOk = true ∧
  w.exportStderr = "" ∧
  w.exportMarkerPath.isSome = true ∧
  w.scp1 = true ∧ w.scp2 = true ∧ w.scp3 = true ∧
  w.rulesetHttpOk = true ∧
  w.importStderr = "" ∧
  (w.repoMetadataStatus = 200 ∨ w.repoMetadataStatus = 201) ∧
  w.statusFileStatus = 201 ∧
  (w.propertiesStatus = 200 ∨ w.propertiesStatus = 201 ∨ w.propertiesStatus = 204) ∧
  w.topicsStatus = 200 ∧
  w.accessViewersStatus = 204 ∧ w.accessContributorsStatus = 204 ∧
  w.accessManagersStatus = 204 ∧
  w.codeownersStatus = 201 ∧
  w.envTeamGetStatus = 200 ∧ w.envPutStatus = 200 ∧
  w.envPolicyMainStatus = 200 ∧ w.envPolicyMasterStatus = 200 ∧
  w.webhookStatus = 201 ∧
  w.trackerGetStatus = 200 ∧ w.trackerPutStatus = 200 ∧
  w.adminDeleteStatus = 204

/-- A concrete world in which every external call succeeds; the org has
one managed ruleset whose condition is the catch-all include. -/
def allOkWorld : World :=
  { rulesets := [⟨1, "branch_names", some ⟨["~ALL"], []⟩⟩],
    validateOk := true,
    exportMarkerPath := some "/tmp/Bitbucket_export_19.tar",
    exportStderr := "",
    exportExitCode := 0,
    scp1 := true,
    scp2 := true,
    scp3 := true,
    rulesetHttpOk := true,
    importStderr := "",
    importExitCode := 0,
    repoMetadataStatus := 200,
    statusFileStatus := 201,
    propertiesStatus := 204,
    topicsStatus := 200,
    accessViewersStatus := 204,
    accessContributorsStatus := 204,
    accessManagersStatus := 204,
    codeownersStatus := 201,
    envTeamGetStatus := 200,
    envPutStatus := 200,
    envPolicyMainStatus := 200,
    envPolicyMasterStatus := 200,
    webhookStatus := 201,
    trackerGetStatus := 200,
    trackerPutStatus := 200,
    adminDeleteStatus := 204 }

/-- One fixed invocation of the pipeline, used to evaluate concrete
scenarios: source repo `PRJ/my-repo`, project code `abc`, destination
org `pru-org`, pipeline type `Platform_Jenkins`, no override. -/
def runScenario (w : World) : List Event × RunOutcome :=
  run_migration w "PRJ" "my-repo" "abc" "pru-org" "Platform_Jenkins" "None"

/-- The ten post-migration events in the order `run_migration` performs
them. -/
def codePostOrder : List Step :=
  [Step.updateRepoMetadata, Step.createStatusFile, Step.setCustomProperties, Step.setTopics,
   Step.grantTeamAccess, Step.createCodeowners, Step.createEnvironments, Step.registerWebhooks,
   Step.appendLedger, Step.removeLegacyAdmin]

/-- Modelled from the spec: the order of the ten effects in the table of
section 4.5 — metadata, status file, custom properties, environments,
topics, team access, CODEOWNERS, webhooks, ledger, admin removal.  This
definition exists to be compared with the order `run_migration`
actually performs. -/
def specTableOrder : List Step :=
  [Step.updateRepoMetadata, Step.createStatusFile, Step.setCustomProperties,
   Step.createEnvironments, Step.setTopics, Step.grantTeamAccess, Step.createCodeowners,
   Step.registerWebhooks, Step.appendLedger, Step.removeLegacyAdmin]

/-! ## Claims C2, C3, C4, C8: the pipeline -/

/-- C2 counterexample: on an all-success run the ten post-migration
events do not follow the order of the spec's section 4.5 table — the
code sets topics, grants team access and creates CODEOWNERS before it
creates the `production` environment, while the table places the
environment step fourth. -/
theorem C2_counterexample :
    postEvents (runScenario allOkWorld).1 ≠ List.map Event.postStep specTableOrder := by
  decide

/-- C2 (amended): when every call returns success (and the pipeline type
is one of the three recognized values), the run completes and applies
exactly the ten effects of the table exactly once each, but in the
code's order: update repo metadata, create status file, set custom
properties, set topics, grant team access, create CODEOWNERS,
create/patch environments, register webhook(s), append migration
ledger, remove legacy admin. -/
theorem C2_post_steps_amended (w : World) (pk repo code org pt udn : String) (h : AllSuccess w)
    (hpt : pt = "Platform_Jenkins" ∨ pt = "Old_Jenkins" ∨ pt = "Both_Jenkins") :
    postEvents (run_migration w pk repo code org pt udn).1 =
      List.map Event.postStep codePostOrder ∧
    (run_migration w pk repo code org pt udn).2 = RunOutcome.completed := by
  obtain ⟨hval, hexp, hmk, hs1, hs2, hs3, hhttp, himp, hmeta, hstat, hprop, htop, hav, hac,
    ham, hco, htg, hep, hp1, hp2, hwh, htrg, htrp, hadm⟩ := h
  obtain ⟨p, hp⟩ := Option.isSome_iff_exists.mp hmk
  have smeta : update_org_repository w.repoMetadataStatus = StepOutcome.ok := by
    rcases hmeta with h' | h' <;> simp [update_org_repository, h']
  have sacc : update_org_repository_access w.accessViewersStatus w.accessContributorsStatus
      w.accessManagersStatus = StepOutcome.ok := by
    simp [update_org_repository_access, hav, hac, ham]
  have senv : update_or_create_enviroments w.envTeamGetStatus w.envPutStatus
      w.envPolicyMainStatus w.envPolicyMasterStatus = StepOutcome.ok := by
    simp [update_or_create_enviroments, htg]
  have strk : update_migration_tracker w.trackerGetStatus w.trackerPutStatus =
      StepOutcome.ok := by
    simp [update_migration_tracker, htrg]
  have sadm : remove_repo_admin w.adminDeleteStatus = StepOutcome.ok := by
    simp [remove_repo_admin, hadm]
  have hwb : ∀ rest, webhook_block w pt rest =
      seqPost Step.registerWebhooks StepOutcome.ok rest := by
    intro rest
    rcases hpt with h' | h' | h' <;> subst h'
    · rw [webhook_block, if_pos (Or.inl rfl)]
      rfl
    · rw [webhook_block, if_pos (Or.inr rfl)]
      rfl
    · rw [webhook_block, if_neg (by decide), if_pos rfl]
      rfl
  constructor <;>
  · simp [run_migration, run_export_archive, scp_command, run_import_archive,
      repo_name_to_exclusion_ruleset, post_migration_steps, codePostOrder, hval, hexp, hp,
      hs1, hs2, hs3, hhttp, himp, rulesetToggleRun_add_done, remove_after_add_done, hwb,
      seqPost, smeta, sacc, senv, strk, sadm, create_status_file_in_repo,
      update_repo_properties, update_org_repository_topics, create_codeowners_in_repo,
      postEvents, isPostStep]

/-- C2 witness: the amended theorem applied at a concrete all-success
world. -/
theorem C2_post_steps_amended_witness :
    postEvents (run_migration allOkWorld "PRJ" "my-repo" "abc" "pru-org" "Platform_Jenkins"
      "None").1 = List.map Event.postStep codePostOrder ∧
    (run_migration allOkWorld "PRJ" "my-repo" "abc" "pru-org" "Platform_Jenkins" "None").2 =
      RunOutcome.completed :=
  C2_post_steps_amended allOkWorld "PRJ" "my-repo" "abc" "pru-org" "Platform_Jenkins" "None"
    (by unfold AllSuccess; decide) (Or.inl rfl)

/-- C3: contrary to the claim (and the spec's table), two of the seven
supposedly log-and-continue steps terminate the run on failure.  When
the migration-tracker content GET fails, the ledger step crashes
(unbound `content`/`sha`, an unhandled `NameError`) and neither the
admin-removal step nor the ruleset release runs; when the environment
team-id GET fails, the environments step crashes (unbound `team_id`)
and the webhook step never runs. -/
theorem C3_nonfatal_steps_crash :
    ((runScenario { allOkWorld with trackerGetStatus := 404 }).2 = RunOutcome.crashed ∧
     Event.postStep Step.appendLedger ∈
       (runScenario { allOkWorld with trackerGetStatus := 404 }).1 ∧
     Event.postStep Step.removeLegacyAdmin ∉
       (runScenario { allOkWorld with trackerGetStatus := 404 }).1 ∧
     Event.rulesetToggle "remove" ∉
       (runScenario { allOkWorld with trackerGetStatus := 404 }).1) ∧
    ((runScenario { allOkWorld with envTeamGetStatus := 500 }).2 = RunOutcome.crashed ∧
     Event.postStep Step.createEnvironments ∈
       (runScenario { allOkWorld with envTeamGetStatus := 500 }).1 ∧
     Event.postStep Step.registerWebhooks ∉
       (runScenario { allOkWorld with envTeamGetStatus := 500 }).1) := by
  refine ⟨⟨by decide, by decide, by decide, by decide⟩, by decide, by decide, by decide⟩

/-- C4: when the export child exits cleanly (empty error stream) without
the success marker ever appearing, `run_export_archive` does NOT treat
the condition as fatal — it returns normally with no archive path — and
the run only dies of the accidental `AttributeError` in `scp_command`
(`None.split`): the trace shows the export event and nothing after it
(no remote download command, no ruleset toggle, no import). -/
theorem C4_missing_marker_not_fatal_in_export :
    run_export_archive { allOkWorld with exportMarkerPath := none } =
      ([Event.exportRun], Except.ok none) ∧
    runScenario { allOkWorld with exportMarkerPath := none } =
      ([Event.exportRun], RunOutcome.crashed) := by
  refine ⟨rfl, by decide⟩

/-- C8: for every world — in particular for every exit code of the
child process, which the source never inspects — a non-empty error
stream of the export or import child makes the run abort: it never
reaches `completed` and no post-migration step event occurs. -/
theorem C8_stderr_fatal (w : World) (pk repo code org pt udn : String)
    (h : w.exportStderr ≠ "" ∨ w.importStderr ≠ "") :
    (run_migration w pk repo code org pt udn).2 ≠ RunOutcome.completed ∧
    postEvents (run_migration w pk repo code org pt udn).1 = [] := by
  rcases h with he | him
  · by_cases hv : w.validateOk <;>
      simp [run_migration, run_export_archive, he, hv, postEvents, isPostStep]
  · by_cases hv : w.validateOk
    · by_cases he : w.exportStderr = ""
      · cases hmk : w.exportMarkerPath with
        | none =>
          simp [run_migration, run_export_archive, scp_command, he, hv, hmk, postEvents,
            isPostStep]
        | some p =>
          by_cases h1 : w.scp1
          · by_cases h2 : w.scp2
            · by_cases h3 : w.scp3
              · by_cases hh : w.rulesetHttpOk
                · simp [run_migration, run_export_archive, scp_command, run_import_archive,
                    repo_name_to_exclusion_ruleset, he, hv, hmk, h1, h2, h3, hh, him,
                    rulesetToggleRun_add_done, postEvents, isPostStep]
                · simp [run_migration, run_export_archive, scp_command,
                    repo_name_to_exclusion_ruleset, he, hv, hmk, h1, h2, h3, hh, postEvents,
                    isPostStep]
              · simp [run_migration, run_export_archive, scp_command, he, hv, hmk, h1, h2, h3,
                  postEvents, isPostStep]
            · simp [run_migration, run_export_archive, scp_command, he, hv, hmk, h1, h2,
                postEvents, isPostStep]
          · simp [run_migration, run_export_archive, scp_command, he, hv, hmk, h1, postEvents,
              isPostStep]
      · simp [run_migration, run_export_archive, he, hv, postEvents, isPostStep]
    · simp [run_migration, hv, postEvents]

/-- C8 witness: the theorem applied at a concrete world whose import
child exits with code 0 but a non-empty error stream. -/
theorem C8_stderr_fatal_witness :
    (run_migration { allOkWorld with importStderr := "error" } "PRJ" "my-repo" "abc" "pru-org"
      "Platform_Jenkins" "None").2 ≠ RunOutcome.completed ∧
    postEvents (run_migration { allOkWorld with importStderr := "error" } "PRJ" "my-repo" "abc"
      "pru-org" "Platform_Jenkins" "None").1 = [] :=
  C8_stderr_fatal { allOkWorld with importStderr := "error" } "PRJ" "my-repo" "abc" "pru-org"
    "Platform_Jenkins" "None" (Or.inr (by decide))
